import Mathlib

/-!
Verification development for the loop relay pipeline (loop-api).

Shallow embedding of:
  - app/crypto.py        (seal_plaintext / reveal_plaintext)
  - app/llm.py           (_is_transient_error / _chat_with_retry / _post_trim / generate_reply)
  - app/routes/bot.py    (the mounted pipeline: _fetch_unprocessed_human_messages,
                          _thread_loop_id_and_members, _resolve_bot_member_id,
                          _insert_bot_dm, _mark_human_processed, process_queue)
  - app/bot.py           (the unmounted variant pipeline: _select_unprocessed, process)
  - app/services/recipients.py (resolve_recipients_for_message)

Python strings are modelled as Lean `String` (a packed list of characters); the
SQL tables are modelled as Lean lists of rows in table order; SQL `ORDER BY`
with no tie-break clause is modelled as a stable sort on table order (one of the
orders Postgres is permitted to return); transactions are modelled by building
the post-state functionally and discarding it on rollback.  The external
text-generation provider is an oracle parameter; clock `now` and fresh row ids
(`nextId`) are explicit state.
-/

namespace Loop

/-! ## Python string helpers (str.strip / str.startswith / slicing) -/

/-- Characters Python's `str.strip()` removes (the ASCII whitespace subset;
    the exact set is irrelevant to the theorems, only consistency matters). -/
def pyWs (c : Char) : Bool :=
  c == ' ' || c == '\t' || c == '\n' || c == '\r' || c == '\x0b' || c == '\x0c'

/-- Model of Python `str.lstrip()` on a character list. -/
def lstripL (s : List Char) : List Char := s.dropWhile pyWs

/-- Model of Python `str.rstrip()` on a character list. -/
def rstripL (s : List Char) : List Char := (s.reverse.dropWhile pyWs).reverse

/-- Model of Python `str.strip()` on a character list. -/
def pyStripL (s : List Char) : List Char := rstripL (lstripL s)

/-- Model of Python `str.strip()`. -/
def pyStrip (s : String) : String := ⟨pyStripL s.data⟩

/-- Model of Python `str.rstrip()`. -/
def pyRstrip (s : String) : String := ⟨rstripL s.data⟩

/-- Model of Python `s[:n]`. -/
def pyTake (s : String) (n : Nat) : String := ⟨s.data.take n⟩

/-- Model of Python `s.startswith(p)`. -/
def pyStartsWith (s p : String) : Bool := p.data.isPrefixOf s.data

/-- Model of Python `len(s)`. -/
def pyLen (s : String) : Nat := s.data.length

/-! ## app/crypto.py -/

/-- The `_PREFIX = "cipher:"` constant of app/crypto.py. -/
def cipherMark : String := "cipher:"

/-- Embedding of `seal_plaintext`: trim outer whitespace, then prepend
    `"cipher:"` (app/crypto.py lines 20-29). -/
def seal_plaintext (plaintext : String) : String :=
  cipherMark ++ pyStrip plaintext

/-- Embedding of `reveal_plaintext`: strip the `"cipher:"` marker if present and
    strip whitespace; otherwise strip the input as-is (app/crypto.py lines 32-41). -/
def reveal_plaintext (ciphertext : String) : String :=
  if pyStartsWith ciphertext cipherMark then
    pyStrip ⟨ciphertext.data.drop (pyLen cipherMark)⟩
  else
    pyStrip ciphertext

/-! ## app/llm.py -/

/-- A provider exception, modelled by its class name and message text. -/
structure ExcInfo where
  name : String
  msg : String
deriving DecidableEq, Repr

/-- Model of Python `str.lower()` (ASCII suffices here). -/
def pyLower (s : String) : String := ⟨s.data.map Char.toLower⟩

/-- The keyword list of `_is_transient_error`. -/
def transientKeys : List String :=
  ["timeout", "timed out", "rate", "limit", "overloaded", "server error", "503", "502", "500"]

/-- Model of Python `key in s` (substring membership). -/
def containsSub (hay needle : List Char) : Bool :=
  hay.tails.any (fun t => needle.isPrefixOf t)

/-- Embedding of `_is_transient_error` (app/llm.py lines 141-153): substring
    heuristic over the lowercased class name and message. -/
def _is_transient_error (e : ExcInfo) : Bool :=
  transientKeys.any
    (fun key => containsSub ((pyLower e.name) ++ " " ++ (pyLower e.msg)).data key.data)

/-- Result of a `_chat_with_retry` run: the returned text or raised exception,
    the sequence of back-off sleeps performed (in seconds), and the number of
    provider attempts made. -/
structure ChatResult where
  result : Except ExcInfo String
  sleeps : List Nat
  attempts : Nat
deriving Repr

/-- The retry loop of `_chat_with_retry` (app/llm.py lines 164-189).
    `left` is the number of attempts still allowed after the current one
    (initially `LLM_RETRIES`, so `attempt >= LLM_RETRIES` in the source is
    `left = 0` here), `attempt` the current attempt index, `delay` the current
    back-off delay, `acc` the sleeps so far in reverse.  The provider call is
    the oracle `oracle : attempt ↦ content or exception`; a successful
    response's content is `.strip()`ped as in the source (line 178). -/
def chatGo (oracle : Nat → Except ExcInfo String) (retryMax : Nat) :
    Nat → Nat → Nat → List Nat → ChatResult
  | 0, attempt, _delay, acc =>
    match oracle attempt with
    | .ok t => ⟨.ok (pyStrip t), acc.reverse, attempt + 1⟩
    | .error e => ⟨.error e, acc.reverse, attempt + 1⟩
  | left + 1, attempt, delay, acc =>
    match oracle attempt with
    | .ok t => ⟨.ok (pyStrip t), acc.reverse, attempt + 1⟩
    | .error e =>
      if _is_transient_error e then
        chatGo oracle retryMax left (attempt + 1) (delay * 2) (min delay retryMax :: acc)
      else
        ⟨.error e, acc.reverse, attempt + 1⟩

/-- Embedding of `_chat_with_retry` (app/llm.py lines 156-189): up to
    `retries` extra attempts, delays start at 1 second and double per retry,
    each sleep capped at `retryMax` (`LLM_RETRY_MAX_SEC`). -/
def _chat_with_retry (retries retryMax : Nat)
    (oracle : Nat → Except ExcInfo String) : ChatResult :=
  chatGo oracle retryMax retries 0 1 []

/-- Embedding of `_post_trim` (app/llm.py lines 192-199). -/
def _post_trim (maxChars : Nat) (text : String) : String :=
  if pyLen text > maxChars then pyRstrip (pyTake text maxChars) else text

/-- Embedding of `generate_reply` (app/llm.py lines 203-257).  The prompt that
    `_build_user_prompt` assembles only feeds the provider, which is the
    oracle, so the model carries the chat outcome directly: a successful chat
    is `_post_trim`med, an exception propagates unchanged.  There is no
    substitution for an empty chat result. -/
def llm_generate_reply (maxChars retries retryMax : Nat)
    (oracle : Nat → Except ExcInfo String) : Except ExcInfo String :=
  match (_chat_with_retry retries retryMax oracle).result with
  | .ok text => .ok (_post_trim maxChars text)
  | .error e => .error e

/-! ## Data model: the relational store, rows kept in table order -/

/-- A row of the `messages` table.  The routes/bot.py pipeline uses the
    `bot_processed_at` marker; the app/bot.py variant uses `processed` /
    `processed_at`; unused columns of either variant default to null. -/
structure Message where
  id : Nat
  thread_id : Nat
  created_by : Nat
  author_member_id : Option Nat
  audience : String
  recipient_profile_id : Option Nat := none
  content_ciphertext : String := ""
  created_at : Nat
  bot_processed_at : Option Nat := none
  processed : Option Bool := none
  processed_at : Option Nat := none
  role : Option String := none
  channel : Option String := none
  visibility : Option String := none
deriving DecidableEq, Repr

/-- A row of `threads`. -/
structure Thread where
  id : Nat
  loop_id : Nat
deriving DecidableEq, Repr

/-- A membership row: `loop_members` in the routes/bot.py schema, `members` in
    the app/bot.py and services/recipients.py schema. -/
structure MemberRow where
  id : Nat
  loop_id : Nat
  profile_id : Nat
deriving DecidableEq, Repr

/-- A row of `loop_agents` (the routes/bot.py bot-membership table). -/
structure LoopAgent where
  id : Nat
  loop_id : Nat
  agent_profile_id : Nat
deriving DecidableEq, Repr

/-- The relational store.  `nextId` supplies fresh ids for inserted rows. -/
structure DB where
  messages : List Message
  threads : List Thread
  loop_members : List MemberRow
  loop_agents : List LoopAgent
  members : List MemberRow
  nextId : Nat
deriving DecidableEq, Repr

/-- Stable insertion, used to model `ORDER BY created_at ASC`: the SQL names
    no tie-break column, so equal timestamps keep table order (one of the
    orders Postgres may return). -/
def insertByTime (m : Message) : List Message → List Message
  | [] => [m]
  | y :: ys => if m.created_at ≤ y.created_at then m :: y :: ys else y :: insertByTime m ys

/-- Stable sort by `created_at` ascending. -/
def sortByTime : List Message → List Message
  | [] => []
  | x :: xs => insertByTime x (sortByTime xs)

/-! ## app/routes/bot.py: query helpers -/

/-- The WHERE clause of `_fetch_unprocessed_human_messages`. -/
def pendingHuman (thread_id : Option Nat) (m : Message) : Bool :=
  m.audience == "inbox_to_bot" && m.bot_processed_at == none &&
    (match thread_id with
     | some t => m.thread_id == t
     | none => true)

/-- Embedding of `_fetch_unprocessed_human_messages` (routes/bot.py 76-109):
    oldest-first selection of unprocessed inbox messages, optional thread
    filter, LIMIT `limit`. -/
def _fetch_unprocessed_human_messages (db : DB) (thread_id : Option Nat) (limit : Nat) :
    List Message :=
  (sortByTime (db.messages.filter (pendingHuman thread_id))).take limit

/-- Embedding of `_thread_loop_id_and_members` (routes/bot.py 112-132); `none`
    models the raised 404 HTTPException when the thread row is missing. -/
def _thread_loop_id_and_members (db : DB) (thread_id : Nat) : Option (Nat × List Nat) :=
  match db.threads.find? (fun t => t.id == thread_id) with
  | none => none
  | some t =>
      some (t.loop_id,
        (db.loop_members.filter (fun lm => lm.loop_id == t.loop_id)).map (fun lm => lm.profile_id))

/-- Embedding of `_resolve_bot_member_id` (routes/bot.py 135-149). -/
def _resolve_bot_member_id (db : DB) (loop_id bot_profile_id : Nat) : Option Nat :=
  (db.loop_agents.find?
    (fun la => la.loop_id == loop_id && la.agent_profile_id == bot_profile_id)).map (fun la => la.id)

/-- Embedding of `_select_recent_sender_messages` (routes/bot.py 152-176):
    the author's last `limit` texts in the thread, oldest to newest, with the
    `cipher:` marker removed and stripped. -/
def _select_recent_sender_messages (db : DB) (thread_id author_member_id : Nat) (limit : Nat) :
    List String :=
  let rows :=
    ((sortByTime (db.messages.filter
      (fun m => m.thread_id == thread_id && m.author_member_id == some author_member_id))).reverse.take
        limit).reverse
  rows.map (fun m =>
    if pyStartsWith m.content_ciphertext cipherMark then
      pyStrip ⟨m.content_ciphertext.data.drop (pyLen cipherMark)⟩
    else pyStrip m.content_ciphertext)

/-- Embedding of `_insert_bot_dm` (routes/bot.py 179-211): the row the INSERT
    writes (`loop_id` is accepted by the Python function but unused in its
    SQL). The caller supplies the fresh id and the `now()` timestamp. -/
def _insert_bot_dm (newId now thread_id bot_profile_id : Nat) (bot_member_id : Option Nat)
    (recipient_profile_id : Nat) (plaintext : String) : Message :=
  { id := newId, thread_id := thread_id, created_by := bot_profile_id,
    author_member_id := bot_member_id, audience := "bot_to_user",
    recipient_profile_id := some recipient_profile_id,
    content_ciphertext := seal_plaintext plaintext, created_at := now }

/-- Embedding of `_mark_human_processed` (routes/bot.py 214-223): set
    `bot_processed_at` on rows with the given id that still have it null. -/
def _mark_human_processed (msgs : List Message) (human_message_id now : Nat) : List Message :=
  msgs.map (fun m =>
    if m.id == human_message_id && m.bot_processed_at == none then
      { m with bot_processed_at := some now }
    else m)

/-! ## app/routes/bot.py: the process_queue pipeline -/

/-- The `ProcessItemResult` response model (routes/bot.py 58-63). -/
structure ProcessItemResult where
  human_message_id : Nat
  thread_id : Nat
  recipients : List Nat := []
  bot_rows : List Nat := []
  skipped_reason : Option String := none
deriving DecidableEq, Repr

/-- The `ProcessStats` response model (routes/bot.py 51-56). -/
structure ProcessStats where
  scanned : Nat := 0
  processed : Nat := 0
  inserted : Nat := 0
  skipped : Nat := 0
  dry_run : Bool := false
deriving DecidableEq, Repr

/-- The `BotProcessResponse` response model (routes/bot.py 65-69). -/
structure BotProcessResponse where
  ok : Bool := true
  reason : Option String := none
  stats : ProcessStats
  items : List ProcessItemResult := []
deriving DecidableEq, Repr

/-- External effects of one `process_queue` run: the authorised bot caller's
    profile id, the clock, the text-generation provider as an oracle over
    (source message id, recipient, context snippets) where `.error` models a
    raised exception, and an insert-failure oracle keyed by the row id the
    INSERT would create (models a database error raised by `_insert_bot_dm`).
-/
structure RunCtx where
  bot_profile_id : Nat
  now : Nat
  gen : Nat → Nat → List String → Except String String
  insFail : Nat → Bool

/-- The per-recipient loop of `process_queue` (routes/bot.py 285-309) inside
    the per-message transaction: with `dry_run` every iteration is skipped;
    otherwise generate (a raise aborts the transaction), drop empty replies,
    and insert (an insert failure aborts the transaction).  Returns the
    scratch store and the new row ids on success. -/
def publishLoop (ctx : RunCtx) (dry_run : Bool) (h : Message)
    (bot_member_id : Option Nat) (snippets : List String) :
    List Nat → DB → List Nat → Except String (DB × List Nat)
  | [], db, new_ids => .ok (db, new_ids.reverse)
  | r :: rest, db, new_ids =>
    if dry_run then publishLoop ctx dry_run h bot_member_id snippets rest db new_ids
    else
      match ctx.gen h.id r snippets with
      | .error e => .error ("error: " ++ e)
      | .ok txt =>
        let relay_text := pyStrip txt
        if relay_text = "" then
          publishLoop ctx dry_run h bot_member_id snippets rest db new_ids
        else
          let newId := db.nextId
          if ctx.insFail newId then .error "error: insert failed"
          else
            let row := _insert_bot_dm newId ctx.now h.thread_id ctx.bot_profile_id
              bot_member_id r relay_text
            publishLoop ctx dry_run h bot_member_id snippets rest
              { db with messages := db.messages ++ [row], nextId := newId + 1 }
              (newId :: new_ids)

/-- Result of one iteration of the message loop: the store after commit or
    rollback, and the item appended to the response (none when the iteration
    re-raised an HTTPException, aborting the request). -/
inductive StepRes where
  | aborted (db : DB)
  | committed (db : DB) (item : ProcessItemResult)
  | skipped (db : DB) (item : ProcessItemResult)
deriving DecidableEq, Repr

/-- One iteration of the message loop of `process_queue` (routes/bot.py
    250-328).  The per-message transaction is modelled by threading a scratch
    store: it is kept on `conn.commit()` and discarded on `conn.rollback()`.
-/
def stepMessage (ctx : RunCtx) (dry_run : Bool) (db : DB) (h : Message) : StepRes :=
  let item0 : ProcessItemResult := { human_message_id := h.id, thread_id := h.thread_id }
  match _thread_loop_id_and_members db h.thread_id with
  | none => .aborted db
  | some (loop_id, all_profiles) =>
    match h.author_member_id with
    | none =>
      -- str(None) is not a UUID: the lookup raises and the generic handler skips
      .skipped db { item0 with skipped_reason := some "error: bad author member id" }
    | some author_member_id =>
      match db.loop_members.find? (fun lm => lm.id == author_member_id) with
      | none => .skipped db { item0 with skipped_reason := some "author member not found" }
      | some lm =>
        let author_profile_id := lm.profile_id
        let recipients := all_profiles.filter (fun pid => pid != author_profile_id)
        let item1 := { item0 with recipients := recipients }
        let snippets := _select_recent_sender_messages db h.thread_id author_member_id 5
        let bot_member_id := _resolve_bot_member_id db loop_id ctx.bot_profile_id
        match publishLoop ctx dry_run h bot_member_id snippets recipients db [] with
        | .error reason => .skipped db { item1 with skipped_reason := some reason }
        | .ok (db2, new_ids) =>
          let db3 :=
            if dry_run then db2
            else { db2 with messages := _mark_human_processed db2.messages h.id ctx.now }
          .committed db3 { item1 with bot_rows := new_ids }

/-- The message loop of `process_queue`: per-message transactions folded over
    the batch, accumulating stats and items; an aborted iteration ends the
    request with no response envelope (FastAPI turns the HTTPException into an
    error response), keeping the already-committed work. -/
def processLoop (ctx : RunCtx) (dry_run : Bool) :
    List Message → DB → ProcessStats → List ProcessItemResult →
    DB × Option BotProcessResponse
  | [], db, stats, items =>
    (db, some { ok := true, reason := none, stats := stats, items := items.reverse })
  | h :: rest, db, stats, items =>
    match stepMessage ctx dry_run db h with
    | .aborted db2 => (db2, none)
    | .committed db2 item =>
      processLoop ctx dry_run rest db2
        { stats with processed := stats.processed + 1,
                     inserted := stats.inserted + item.bot_rows.length }
        (item :: items)
    | .skipped db2 item =>
      processLoop ctx dry_run rest db2
        { stats with skipped := stats.skipped + 1 } (item :: items)

/-- Embedding of the `process_queue` endpoint (routes/bot.py 227-330) for an
    authorised bot caller. -/
def process_queue (ctx : RunCtx) (thread_id : Option Nat) (limit : Nat) (dry_run : Bool)
    (db : DB) : DB × Option BotProcessResponse :=
  let humans := _fetch_unprocessed_human_messages db thread_id limit
  processLoop ctx dry_run humans db
    { scanned := humans.length, dry_run := dry_run } []

/-! ## app/services/recipients.py -/

/-- Embedding of `_fetch_loop_id_for_member` (services/recipients.py 18-34). -/
def _fetch_loop_id_for_member (db : DB) (author_member_id : Nat) : Option Nat :=
  (db.members.find? (fun m => m.id == author_member_id)).map (fun m => m.loop_id)

/-- Embedding of `_fetch_recipients_for_loop` (services/recipients.py 37-72):
    loop members whose profile id is not in the exclusion set. -/
def _fetch_recipients_for_loop (db : DB) (loop_id : Nat) (exclude_profile_ids : List Nat) :
    List Nat :=
  (db.members.filter
    (fun m => m.loop_id == loop_id && !(exclude_profile_ids.contains m.profile_id))).map
      (fun m => m.profile_id)

/-- Embedding of `resolve_recipients_for_message` (services/recipients.py
    75-98): canonical resolver, excluding the author and every known bot id.
-/
def resolve_recipients_for_message (db : DB) (author_member_id author_profile_id : Nat)
    (known_bot_profile_ids : List Nat) : List Nat :=
  match _fetch_loop_id_for_member db author_member_id with
  | none => []
  | some loop_id =>
    _fetch_recipients_for_loop db loop_id (author_profile_id :: known_bot_profile_ids)

/-! ## app/bot.py: the unmounted variant pipeline -/

/-- Embedding of `_select_unprocessed` (app/bot.py 38-59):
    `COALESCE(processed, FALSE) = FALSE`, oldest first, LIMIT `limit`. -/
def _select_unprocessed (db : DB) (thread_id : Option Nat) (limit : Nat) : List Message :=
  (sortByTime (db.messages.filter (fun m =>
    m.audience == "inbox_to_bot" && !(m.processed == some true) &&
      (match thread_id with | some t => m.thread_id == t | none => true)))).take limit

/-- The `Preview` response model (app/bot.py 145-147). -/
structure Preview where
  recipient_profile_id : Nat
  content : String
deriving DecidableEq, Repr

/-- The `Item` response model (app/bot.py 149-155). -/
structure BotItem where
  human_message_id : Nat
  thread_id : Nat
  recipients : List Nat
  previews : List Preview
  skipped_reason : Option String
deriving DecidableEq, Repr

/-- A row queued in `to_publish` (app/bot.py 243-252). -/
structure PubRow where
  thread_id : Nat
  created_at : Nat
  bot_member_id : Nat
  recipient_profile_id : Nat
  content_ciphertext : String
deriving DecidableEq, Repr

/-- The local `generate_reply` of app/bot.py (lines 19-20), which shadows the
    one imported from app.llm and always returns "FYI.". -/
def bot_generate_reply (_human_text : String) (_author_profile_id _recipient_profile_id : Nat)
    (_thread_id : Nat) : String :=
  "FYI."

/-- One iteration of the message loop of `process` (app/bot.py 211-270): the
    item for the response, plus this message's additions to `to_publish` and
    `source_ids`. -/
def stepBot (bot_profile_id : Nat) (dry_run : Bool) (now : Nat) (db : DB) (r : Message) :
    BotItem × List PubRow × List Nat :=
  match r.author_member_id with
  | none =>
    ({ human_message_id := r.id, thread_id := r.thread_id, recipients := [],
       previews := [], skipped_reason := some "missing author_member_id" }, [], [])
  | some author_member_id =>
    match (db.members.find? (fun m => m.id == author_member_id)).map (fun m => m.loop_id) with
    | none =>
      ({ human_message_id := r.id, thread_id := r.thread_id, recipients := [],
         previews := [], skipped_reason := some "missing loop_id" }, [], [])
    | some loop_id =>
      match db.members.find?
          (fun m => m.loop_id == loop_id && m.profile_id == bot_profile_id) with
      | none =>
        ({ human_message_id := r.id, thread_id := r.thread_id, recipients := [],
           previews := [], skipped_reason := some "bot not a member of loop" }, [], [])
      | some botm =>
        let recipients := (db.members.filter (fun m => m.loop_id == loop_id &&
          m.profile_id != r.created_by && m.profile_id != bot_profile_id)).map
            (fun m => m.profile_id)
        let previews := recipients.map (fun pid =>
          { recipient_profile_id := pid,
            content := bot_generate_reply "" r.created_by pid r.thread_id : Preview })
        let pubs : List PubRow :=
          if dry_run then [] else recipients.map (fun pid =>
            { thread_id := r.thread_id, created_at := now, bot_member_id := botm.id,
              recipient_profile_id := pid,
              content_ciphertext := bot_generate_reply "" r.created_by pid r.thread_id })
        ({ human_message_id := r.id, thread_id := r.thread_id, recipients := recipients,
           previews := if dry_run then previews else [], skipped_reason := none },
         pubs, if dry_run then [] else [r.id])

/-- The message loop of `process` (app/bot.py 211-270), accumulating items,
    publish rows, source ids and the skipped counter in batch order. -/
def botLoop (bot_profile_id : Nat) (dry_run : Bool) (now : Nat) (db : DB) :
    List Message → List BotItem × List PubRow × List Nat × Nat
  | [] => ([], [], [], 0)
  | r :: rest =>
    let s := stepBot bot_profile_id dry_run now db r
    let a := botLoop bot_profile_id dry_run now db rest
    (s.1 :: a.1, s.2.1 ++ a.2.1, s.2.2 ++ a.2.2.1,
      (if s.1.skipped_reason == none then 0 else 1) + a.2.2.2)

/-- Embedding of `_insert_and_mark` (app/bot.py 91-141): batch-insert the
    outbound rows (with the NOT NULL columns this variant sets), then set
    `processed` / `processed_at` on every source id (this variant has no
    null guard), in one transaction.  Returns the store and
    (inserted_count, processed_count). -/
def _insert_and_mark (bot_profile_id now : Nat) (db : DB) (rows_to_publish : List PubRow)
    (source_ids : List Nat) : DB × Nat × Nat :=
  let afterInsert := rows_to_publish.foldl (fun (a : DB) r =>
    { a with
      messages := a.messages ++ [{
        id := a.nextId, thread_id := r.thread_id, created_by := bot_profile_id,
        author_member_id := some r.bot_member_id, audience := "bot_to_user",
        recipient_profile_id := some r.recipient_profile_id,
        content_ciphertext := r.content_ciphertext, created_at := r.created_at,
        role := some "bot", channel := some "outbox", visibility := some "private" }],
      nextId := a.nextId + 1 }) db
  let marked := afterInsert.messages.map (fun m =>
    if source_ids.contains m.id then
      { m with processed := some true, processed_at := some now }
    else m)
  ({ afterInsert with messages := marked }, rows_to_publish.length,
    (afterInsert.messages.filter (fun m => source_ids.contains m.id)).length)

/-- The `ProcessResponse` model of app/bot.py (164-168). -/
structure BotResponse where
  ok : Bool
  reason : Option String
  stats : ProcessStats
  items : List BotItem
deriving DecidableEq, Repr

/-- Embedding of the `process` endpoint of the unmounted variant (app/bot.py
    172-299): select, per-message resolution (read-only), then one publish
    transaction at the end when not a dry run. -/
def bot_process (bot_profile_id : Nat) (thread_id : Option Nat) (limit : Nat) (dry_run : Bool)
    (now : Nat) (db : DB) : DB × BotResponse :=
  let rows := _select_unprocessed db thread_id limit
  if rows.isEmpty then
    (db, { ok := true, reason := none,
           stats := { scanned := rows.length, processed := 0, inserted := 0, skipped := 0,
                      dry_run := dry_run },
           items := [] })
  else
    let acc := botLoop bot_profile_id dry_run now db rows
    if !dry_run && (!acc.2.1.isEmpty || !acc.2.2.1.isEmpty) then
      let pub := _insert_and_mark bot_profile_id now db acc.2.1 acc.2.2.1
      (pub.1, { ok := true, reason := none,
                stats := { scanned := rows.length, processed := pub.2.2, inserted := pub.2.1,
                           skipped := acc.2.2.2, dry_run := dry_run },
                items := acc.1 })
    else
      (db, { ok := true, reason := none,
             stats := { scanned := rows.length, processed := 0, inserted := 0,
                        skipped := acc.2.2.2, dry_run := dry_run },
             items := acc.1 })

/-- The comparison used by `ORDER BY created_at ASC`. -/
def timeLE (a b : Message) : Prop := a.created_at ≤ b.created_at

/-! ## stepMessage lemmas -/

/-- The store a step leaves behind. -/
def StepRes.store : StepRes → DB
  | .aborted db => db
  | .committed db _ => db
  | .skipped db _ => db

/-- The exactly-once invariant tracked per reported item: under this item's
    source id, every inbox row of the store carries a non-null marker. -/
def MarkedFor (db : DB) (item : ProcessItemResult) : Prop :=
  ∀ m ∈ db.messages, m.audience = "inbox_to_bot" → m.id = item.human_message_id →
    m.bot_processed_at ≠ none

/-- Provenance of a row after a run started from store `db`: it was already
    present, or it is a present row with its marker set, or it was inserted by
    `_insert_bot_dm` and its content is sealed. -/
def RowProvenance (db : DB) (now : Nat) (m : Message) : Prop :=
  m ∈ db.messages ∨
  (∃ m0 ∈ db.messages, m = { m0 with bot_processed_at := some now }) ∨
  ∃ p, m.content_ciphertext = seal_plaintext p

/-- The pending inbox message of the C10 witness run. -/
def msg10 : Message :=
  { id := 1, thread_id := 1, created_by := 100, author_member_id := some 10,
    audience := "inbox_to_bot", created_at := 3 }

/-- Store for the C10 witness run: one pending inbox message, a two-member
    loop, the bot registered as a loop agent. -/
def db10 : DB :=
  { messages := [msg10],
    threads := [⟨1, 1⟩],
    loop_members := [⟨10, 1, 100⟩, ⟨12, 1, 200⟩],
    loop_agents := [⟨20, 1, 999⟩],
    members := [], nextId := 50 }

def ctx10 : RunCtx :=
  { bot_profile_id := 999, now := 77, gen := fun _ _ _ => .ok "hi", insFail := fun _ => false }

/-- The outbound row the C10 witness run inserts. -/
def row10 : Message :=
  { id := 50, thread_id := 1, created_by := 999, author_member_id := some 20,
    audience := "bot_to_user", recipient_profile_id := some 200,
    content_ciphertext := "cipher:hi", created_at := 77 }

/-- Attempt oracle for the C9 witness: a transient failure, then success. -/
def o9 : Nat → Except ExcInfo String :=
  fun n => if n == 0 then .error ⟨"E", "503"⟩ else .ok "hi"

/-- Decidable equality for `Except`, used to evaluate oracles in witnesses. -/
instance {ε α : Type} [DecidableEq ε] [DecidableEq α] : DecidableEq (Except ε α) := fun x y =>
  match x, y with
  | .ok a, .ok b =>
    if h : a = b then isTrue (by rw [h]) else
      isFalse (by intro hh; injection hh; contradiction)
  | .error a, .error b =>
    if h : a = b then isTrue (by rw [h]) else
      isFalse (by intro hh; injection hh; contradiction)
  | .ok _, .error _ => isFalse (by intro hh; cases hh)
  | .error _, .ok _ => isFalse (by intro hh; cases hh)

/-- Two pending messages with equal `created_at` and descending ids, in table
    order. -/
def msg6a : Message :=
  { id := 2, thread_id := 1, created_by := 0, author_member_id := some 0,
    audience := "inbox_to_bot", created_at := 5 }

def msg6b : Message :=
  { id := 1, thread_id := 1, created_by := 0, author_member_id := some 0,
    audience := "inbox_to_bot", created_at := 5 }

def db6 : DB :=
  { messages := [msg6a, msg6b], threads := [], loop_members := [], loop_agents := [],
    members := [], nextId := 10 }

/-- A store with nothing pending, for the C6 witness. -/
def db6e : DB :=
  { messages := [{ msg6a with bot_processed_at := some 1 }], threads := [],
    loop_members := [], loop_agents := [], members := [], nextId := 10 }

/-- Store for the C1 counterexample: the bot's profile (999) is itself a
    `loop_members` row of loop 1. -/
def db1c : DB :=
  { messages := [{ id := 1, thread_id := 1, created_by := 100,
                   author_member_id := some 10, audience := "inbox_to_bot", created_at := 1 }],
    threads := [⟨1, 1⟩],
    loop_members := [⟨10, 1, 100⟩, ⟨11, 1, 999⟩, ⟨12, 1, 200⟩],
    loop_agents := [⟨20, 1, 999⟩],
    members := [], nextId := 60 }

def ctx1c : RunCtx :=
  { bot_profile_id := 999, now := 88, gen := fun _ _ _ => .ok "ok", insFail := fun _ => false }

/-- Witness inputs for C1: bot 999 kept out of `loop_members`; the resolver
    table `members` mirrors the loop membership. -/
def msg1w : Message :=
  { id := 1, thread_id := 1, created_by := 100, author_member_id := some 10,
    audience := "inbox_to_bot", created_at := 3 }

def db1w : DB :=
  { messages := [msg1w],
    threads := [⟨1, 1⟩],
    loop_members := [⟨10, 1, 100⟩, ⟨12, 1, 200⟩],
    loop_agents := [⟨20, 1, 999⟩],
    members := [⟨10, 1, 100⟩, ⟨12, 1, 200⟩], nextId := 50 }

def ctx1w : RunCtx :=
  { bot_profile_id := 999, now := 77, gen := fun _ _ _ => .ok "hi", insFail := fun _ => false }

/-- The store the C1 witness step commits. -/
def db1x : DB :=
  { messages := [{ msg1w with bot_processed_at := some 77 },
      { id := 50, thread_id := 1, created_by := 999, author_member_id := some 20,
        audience := "bot_to_user", recipient_profile_id := some 200,
        content_ciphertext := "cipher:hi", created_at := 77 }],
    threads := [⟨1, 1⟩],
    loop_members := [⟨10, 1, 100⟩, ⟨12, 1, 200⟩],
    loop_agents := [⟨20, 1, 999⟩],
    members := [⟨10, 1, 100⟩, ⟨12, 1, 200⟩], nextId := 51 }

def item1x : ProcessItemResult :=
  { human_message_id := 1, thread_id := 1, recipients := [200], bot_rows := [50],
    skipped_reason := none }

/-- Witness inputs for C3: the insert-failure oracle fails every insert, so
    the iteration rolls back. -/
def msg3 : Message :=
  { id := 1, thread_id := 1, created_by := 100, author_member_id := some 10,
    audience := "inbox_to_bot", created_at := 3 }

def db3 : DB :=
  { messages := [msg3],
    threads := [⟨1, 1⟩],
    loop_members := [⟨10, 1, 100⟩, ⟨12, 1, 200⟩],
    loop_agents := [⟨20, 1, 999⟩],
    members := [], nextId := 50 }

def ctx3 : RunCtx :=
  { bot_profile_id := 999, now := 77, gen := fun _ _ _ => .ok "hi", insFail := fun _ => true }

def item3 : ProcessItemResult :=
  { human_message_id := 1, thread_id := 1, recipients := [200], bot_rows := [],
    skipped_reason := some "error: insert failed" }

def msg3p : Message := { msg3 with bot_processed_at := some 2 }

/-- Witness inputs for C4: one processed message, then a second selection. -/
def msg4 : Message :=
  { id := 1, thread_id := 1, created_by := 100, author_member_id := some 10,
    audience := "inbox_to_bot", created_at := 3 }

def db4 : DB :=
  { messages := [msg4],
    threads := [⟨1, 1⟩],
    loop_members := [⟨10, 1, 100⟩, ⟨12, 1, 200⟩],
    loop_agents := [⟨20, 1, 999⟩],
    members := [], nextId := 50 }

def ctx4 : RunCtx :=
  { bot_profile_id := 999, now := 77, gen := fun _ _ _ => .ok "hi", insFail := fun _ => false }

/-- The store after the C4 witness run. -/
def db4x : DB :=
  { messages := [{ msg4 with bot_processed_at := some 77 },
      { id := 50, thread_id := 1, created_by := 999, author_member_id := some 20,
        audience := "bot_to_user", recipient_profile_id := some 200,
        content_ciphertext := "cipher:hi", created_at := 77 }],
    threads := [⟨1, 1⟩],
    loop_members := [⟨10, 1, 100⟩, ⟨12, 1, 200⟩],
    loop_agents := [⟨20, 1, 999⟩],
    members := [], nextId := 51 }

def item4 : ProcessItemResult :=
  { human_message_id := 1, thread_id := 1, recipients := [200], bot_rows := [50],
    skipped_reason := none }

def resp4 : BotProcessResponse :=
  { ok := true, reason := none,
    stats := { scanned := 1, processed := 1, inserted := 1, skipped := 0, dry_run := false },
    items := [item4] }

/-- Store and oracle for the C5 counterexample: recipients X = 200 and
    Y = 300; generation raises for X and succeeds for Y. -/
def msg5 : Message :=
  { id := 1, thread_id := 1, created_by := 100, author_member_id := some 10,
    audience := "inbox_to_bot", created_at := 1 }

def db5 : DB :=
  { messages := [msg5],
    threads := [⟨1, 1⟩],
    loop_members := [⟨10, 1, 100⟩, ⟨11, 1, 200⟩, ⟨12, 1, 300⟩],
    loop_agents := [⟨20, 1, 999⟩],
    members := [], nextId := 70 }

def ctx5 : RunCtx :=
  { bot_profile_id := 999, now := 99,
    gen := fun _ r _ => if r == 200 then .error "boom" else .ok "hello",
    insFail := fun _ => false }

/-- The response of the C5 counterexample run. -/
def resp5 : BotProcessResponse :=
  { ok := true, reason := none,
    stats := { scanned := 1, processed := 0, inserted := 0, skipped := 1, dry_run := false },
    items := [{ human_message_id := 1, thread_id := 1, recipients := [200, 300],
                bot_rows := [], skipped_reason := some "error: boom" }] }

/-- Oracle for the C5 witness: an empty reply for 200, a real one for 300. -/
def ctx5e : RunCtx :=
  { bot_profile_id := 999, now := 99,
    gen := fun _ r _ => if r == 200 then .ok "  " else .ok "hello",
    insFail := fun _ => false }

/-- Store for the C7 counterexample: `loop_agents` has no entry for the bot in
    loop 1. -/
def msg7 : Message :=
  { id := 1, thread_id := 1, created_by := 100, author_member_id := some 10,
    audience := "inbox_to_bot", created_at := 3 }

def db7 : DB :=
  { messages := [msg7],
    threads := [⟨1, 1⟩],
    loop_members := [⟨10, 1, 100⟩, ⟨12, 1, 200⟩],
    loop_agents := [],
    members := [], nextId := 50 }

def ctx7 : RunCtx :=
  { bot_profile_id := 999, now := 77, gen := fun _ _ _ => .ok "hi", insFail := fun _ => false }

/-- The response of the C7 counterexample run: the message is NOT skipped. -/
def resp7 : BotProcessResponse :=
  { ok := true, reason := none,
    stats := { scanned := 1, processed := 1, inserted := 1, skipped := 0, dry_run := false },
    items := [{ human_message_id := 1, thread_id := 1, recipients := [200],
                bot_rows := [50], skipped_reason := none }] }

/-- Witness inputs for C7: loop 1 has members 100 and 200 but no row for the
    bot profile 999. -/
def msg7w : Message :=
  { id := 1, thread_id := 1, created_by := 100, author_member_id := some 10,
    audience := "inbox_to_bot", created_at := 3 }

def db7w : DB :=
  { messages := [msg7w], threads := [],
    loop_members := [],
    loop_agents := [],
    members := [⟨10, 1, 100⟩, ⟨12, 1, 200⟩], nextId := 50 }

/-! ### Strip lemmas -/

theorem dropWhile_dropWhile (p : α → Bool) (l : List α) :
    (l.dropWhile p).dropWhile p = l.dropWhile p := by
  induction l with
  | nil => rfl
  | cons a l ih =>
    by_cases h : p a
    · simp [List.dropWhile_cons, h, ih]
    · simp [List.dropWhile_cons, h]

theorem lstripL_lstripL (s : List Char) : lstripL (lstripL s) = lstripL s :=
  dropWhile_dropWhile pyWs s

theorem rstripL_rstripL (s : List Char) : rstripL (rstripL s) = rstripL s := by
  unfold rstripL
  rw [List.reverse_reverse, dropWhile_dropWhile]

/-- The head of `dropWhile p l` does not satisfy `p`. -/
theorem head_dropWhile_not (p : α → Bool) (l : List α) :
    ∀ a t, l.dropWhile p = a :: t → p a = false := by
  induction l with
  | nil => intro a t h; simp at h
  | cons b l ih =>
    intro a t h
    by_cases hb : p b
    · rw [List.dropWhile_cons, if_pos hb] at h
      exact ih a t h
    · rw [List.dropWhile_cons, if_neg hb] at h
      cases h
      simpa using hb

/-- `lstripL` of a list whose first element is non-whitespace is the list itself. -/
theorem lstripL_of_head_not (a : Char) (t : List Char) (h : pyWs a = false) :
    lstripL (a :: t) = a :: t := by
  unfold lstripL
  rw [List.dropWhile_cons, if_neg (by simp [h])]

/-- `rstripL` only removes elements from the end: it never changes the head
    when the head survives. Precisely, `rstripL (a :: t)` is either `[]` or
    `a :: t'` for some `t'`. -/
theorem rstripL_cons_cases (a : Char) (t : List Char) :
    rstripL (a :: t) = [] ∨ ∃ t', rstripL (a :: t) = a :: t' := by
  unfold rstripL
  induction t using List.reverseRecOn with
  | nil =>
    by_cases h : pyWs a
    · left; simp [h]
    · right; exact ⟨[], by simp [h]⟩
  | append_singleton t b ih =>
    by_cases hb : pyWs b
    · rcases ih with h | ⟨t', h⟩
      · left
        rw [show a :: (t ++ [b]) = (a :: t) ++ [b] by simp,
          List.reverse_append] at *
        simpa [hb] using h
      · right
        refine ⟨t', ?_⟩
        rw [show a :: (t ++ [b]) = (a :: t) ++ [b] by simp,
          List.reverse_append]
        simpa [hb] using h
    · right
      refine ⟨t ++ [b].dropLast ++ [b].headI :: [], ?_⟩
      rw [show a :: (t ++ [b]) = (a :: t) ++ [b] by simp,
        List.reverse_append]
      simp [List.dropWhile_cons, hb]

/-- Stripping is idempotent: `pyStripL (pyStripL s) = pyStripL s`. -/
theorem pyStripL_idem (s : List Char) : pyStripL (pyStripL s) = pyStripL s := by
  show rstripL (lstripL (rstripL (lstripL s))) = rstripL (lstripL s)
  rcases hl : lstripL s with _ | ⟨a, t⟩
  · rfl
  · have ha : pyWs a = false := head_dropWhile_not pyWs s a t hl
    rcases rstripL_cons_cases a t with h | ⟨t', h⟩
    · rw [h]; rfl
    · rw [h, lstripL_of_head_not a t' ha, ← h]
      exact rstripL_rstripL _

/-- Length can only shrink under `rstripL`. -/
theorem rstripL_length_le (s : List Char) : (rstripL s).length ≤ s.length := by
  unfold rstripL
  calc (s.reverse.dropWhile pyWs).reverse.length
      = (s.reverse.dropWhile pyWs).length := by rw [List.length_reverse]
    _ ≤ s.reverse.length := (List.dropWhile_sublist _).length_le
    _ = s.length := List.length_reverse _

/-- Round trip: revealing a sealed text yields the stripped plaintext. -/
theorem reveal_seal_eq_strip (s : String) :
    reveal_plaintext (seal_plaintext s) = pyStrip s := by
  have hdata : (seal_plaintext s).data = cipherMark.data ++ (pyStrip s).data := by
    simp [seal_plaintext, String.data_append]
  have hpre : pyStartsWith (seal_plaintext s) cipherMark = true := by
    rw [pyStartsWith, hdata, List.isPrefixOf_iff_prefix]
    exact List.prefix_append _ _
  rw [reveal_plaintext, if_pos hpre, hdata]
  rw [show pyLen cipherMark = cipherMark.data.length from rfl, List.drop_left]
  show String.mk (pyStripL (pyStripL s.data)) = String.mk (pyStripL s.data)
  rw [pyStripL_idem]

/-- The post-trim never returns more than `maxChars` characters. -/
theorem pyLen_post_trim_le (maxChars : Nat) (text : String) :
    pyLen (_post_trim maxChars text) ≤ maxChars := by
  unfold _post_trim
  by_cases h : pyLen text > maxChars
  · rw [if_pos h]
    show (rstripL ((pyTake text maxChars).data)).length ≤ maxChars
    refine le_trans (rstripL_length_le _) ?_
    show (text.data.take maxChars).length ≤ maxChars
    simp
  · rw [if_neg h]
    exact Nat.le_of_not_lt h

/-- The retry loop makes at least one provider attempt. -/
theorem chatGo_attempts_ge (oracle : Nat → Except ExcInfo String) (retryMax : Nat) :
    ∀ left attempt delay acc,
      attempt + 1 ≤ (chatGo oracle retryMax left attempt delay acc).attempts := by
  intro left
  induction left with
  | zero =>
    intro attempt delay acc
    simp only [chatGo]
    cases oracle attempt <;> simp
  | succ n ih =>
    intro attempt delay acc
    simp only [chatGo]
    cases h : oracle attempt with
    | ok t => simp
    | error e =>
      dsimp only
      by_cases ht : _is_transient_error e
      · rw [if_pos ht]
        exact le_trans (by omega) (ih (attempt + 1) (delay * 2) (min delay retryMax :: acc))
      · rw [if_neg ht]

/-- The retry loop makes at most `left + 1` further provider attempts. -/
theorem chatGo_attempts_le (oracle : Nat → Except ExcInfo String) (retryMax : Nat) :
    ∀ left attempt delay acc,
      (chatGo oracle retryMax left attempt delay acc).attempts ≤ attempt + left + 1 := by
  intro left
  induction left with
  | zero =>
    intro attempt delay acc
    simp only [chatGo]
    cases oracle attempt <;> simp
  | succ n ih =>
    intro attempt delay acc
    simp only [chatGo]
    cases h : oracle attempt with
    | ok t => simp
    | error e =>
      dsimp only
      by_cases ht : _is_transient_error e
      · rw [if_pos ht]
        exact le_trans (ih (attempt + 1) (delay * 2) (min delay retryMax :: acc)) (by omega)
      · rw [if_neg ht]; simp

/-- Sleeps performed by the retry loop: one per retried attempt, the `i`-th
    being the current delay doubled `i` times, capped at `retryMax`. -/
theorem chatGo_sleeps (oracle : Nat → Except ExcInfo String) (retryMax : Nat) :
    ∀ left attempt delay acc,
      (chatGo oracle retryMax left attempt delay acc).sleeps
        = acc.reverse
          ++ (List.range ((chatGo oracle retryMax left attempt delay acc).attempts - 1 - attempt)).map
              (fun i => min (delay * 2 ^ i) retryMax) := by
  intro left
  induction left with
  | zero =>
    intro attempt delay acc
    simp only [chatGo]
    cases oracle attempt <;> simp
  | succ n ih =>
    intro attempt delay acc
    simp only [chatGo]
    cases h : oracle attempt with
    | ok t => simp
    | error e =>
      dsimp only
      by_cases ht : _is_transient_error e
      · rw [if_pos ht]
        have hge := chatGo_attempts_ge oracle retryMax n (attempt + 1) (delay * 2)
          (min delay retryMax :: acc)
        rw [ih (attempt + 1) (delay * 2) (min delay retryMax :: acc)]
        set r := chatGo oracle retryMax n (attempt + 1) (delay * 2) (min delay retryMax :: acc)
        have hk : r.attempts - 1 - attempt = (r.attempts - 1 - (attempt + 1)) + 1 := by omega
        rw [hk, List.range_succ_eq_map, List.map_cons, List.map_map, List.reverse_cons]
        have hfun :
            ((fun i => min (delay * 2 ^ i) retryMax) ∘ Nat.succ)
              = fun i => min (delay * 2 * 2 ^ i) retryMax := by
          funext i
          simp only [Function.comp]
          congr 1
          rw [pow_succ]
          ring
        rw [hfun]
        simp [List.append_assoc]
      · rw [if_neg ht]; simp

/-- Every provider attempt before the final one failed with a transient error (so a retry never follows a success or a non-transient failure). -/
theorem chatGo_mid_transient (oracle : Nat → Except ExcInfo String) (retryMax : Nat) :
    ∀ left attempt delay acc i, attempt ≤ i →
      i + 1 < (chatGo oracle retryMax left attempt delay acc).attempts →
      ∃ e, oracle i = .error e ∧ _is_transient_error e = true := by
  intro left
  induction left with
  | zero =>
    intro attempt delay acc i hle hlt
    simp only [chatGo] at hlt
    cases h : oracle attempt <;> rw [h] at hlt <;> dsimp only at hlt <;> omega
  | succ n ih =>
    intro attempt delay acc i hle hlt
    simp only [chatGo] at hlt
    cases h : oracle attempt with
    | ok t => rw [h] at hlt; dsimp only at hlt; omega
    | error e =>
      rw [h] at hlt
      dsimp only at hlt
      by_cases ht : _is_transient_error e
      · rw [if_pos ht] at hlt
        rcases Nat.eq_or_lt_of_le hle with heq | hgt
        · rw [heq] at h
          exact ⟨e, h, ht⟩
        · exact ih (attempt + 1) (delay * 2) (min delay retryMax :: acc) i hgt hlt
      · rw [if_neg ht] at hlt
        dsimp only at hlt; omega

/-- When the retry loop raises, the raised exception is the final attempt's
    failure, and either the attempt budget was exhausted or the failure was
    non-transient. -/
theorem chatGo_error (oracle : Nat → Except ExcInfo String) (retryMax : Nat) :
    ∀ left attempt delay acc e,
      (chatGo oracle retryMax left attempt delay acc).result = .error e →
      oracle ((chatGo oracle retryMax left attempt delay acc).attempts - 1) = .error e ∧
        ((chatGo oracle retryMax left attempt delay acc).attempts = attempt + left + 1 ∨
          _is_transient_error e = false) := by
  intro left
  induction left with
  | zero =>
    intro attempt delay acc e hres
    simp only [chatGo] at hres ⊢
    cases h : oracle attempt with
    | ok t => rw [h] at hres; simp at hres
    | error e2 =>
      rw [h] at hres
      dsimp only at hres ⊢
      simp only [Except.error.injEq] at hres
      subst hres
      simpa using h
  | succ n ih =>
    intro attempt delay acc e hres
    simp only [chatGo] at hres ⊢
    cases h : oracle attempt with
    | ok t => rw [h] at hres; simp at hres
    | error e2 =>
      rw [h] at hres
      dsimp only at hres ⊢
      by_cases ht : _is_transient_error e2
      · rw [if_pos ht] at hres ⊢
        rcases ih (attempt + 1) (delay * 2) (min delay retryMax :: acc) e hres with ⟨h1, h2⟩
        refine ⟨h1, ?_⟩
        rcases h2 with h2 | h2
        · exact Or.inl (by omega)
        · exact Or.inr h2
      · rw [if_neg ht] at hres ⊢
        simp only [Except.error.injEq] at hres
        subst hres
        exact ⟨by simpa using h, Or.inr (by simpa using ht)⟩

/-! ## Sorting and selection lemmas -/

theorem mem_insertByTime (m a : Message) (l : List Message) :
    a ∈ insertByTime m l ↔ a = m ∨ a ∈ l := by
  induction l with
  | nil => simp [insertByTime]
  | cons y ys ih =>
    by_cases h : m.created_at ≤ y.created_at
    · simp [insertByTime, h]
    · simp [insertByTime, h, ih]
      tauto

theorem mem_sortByTime (a : Message) (l : List Message) :
    a ∈ sortByTime l ↔ a ∈ l := by
  induction l with
  | nil => simp [sortByTime]
  | cons x xs ih =>
    simp [sortByTime, mem_insertByTime, ih]

theorem sorted_insertByTime (m : Message) (l : List Message)
    (h : List.Sorted timeLE l) : List.Sorted timeLE (insertByTime m l) := by
  induction l with
  | nil => simp [insertByTime, List.Sorted]
  | cons y ys ih =>
    rcases List.sorted_cons.1 h with ⟨hy, hys⟩
    by_cases hle : m.created_at ≤ y.created_at
    · rw [insertByTime, if_pos hle]
      refine List.sorted_cons.2 ⟨?_, h⟩
      intro b hb
      rcases List.mem_cons.1 hb with rfl | hb
      · exact hle
      · exact le_trans hle (hy b hb)
    · rw [insertByTime, if_neg hle]
      refine List.sorted_cons.2 ⟨?_, ih hys⟩
      intro b hb
      rcases (mem_insertByTime m b ys).1 hb with rfl | hb
      · exact le_of_not_le hle
      · exact hy b hb

theorem sorted_sortByTime (l : List Message) : List.Sorted timeLE (sortByTime l) := by
  induction l with
  | nil => simp [sortByTime, List.Sorted]
  | cons x xs ih => exact sorted_insertByTime x (sortByTime xs) ih

theorem length_insertByTime (m : Message) (l : List Message) :
    (insertByTime m l).length = l.length + 1 := by
  induction l with
  | nil => rfl
  | cons y ys ih =>
    by_cases h : m.created_at ≤ y.created_at
    · simp [insertByTime, h]
    · simp [insertByTime, h, ih]

theorem length_sortByTime (l : List Message) : (sortByTime l).length = l.length := by
  induction l with
  | nil => rfl
  | cons x xs ih => simp [sortByTime, length_insertByTime, ih]

/-- Everything the fetch returns is a pending inbox row of the store. -/
theorem mem_fetch (db : DB) (tf : Option Nat) (lim : Nat) (m : Message)
    (h : m ∈ _fetch_unprocessed_human_messages db tf lim) :
    m ∈ db.messages ∧ pendingHuman tf m = true := by
  unfold _fetch_unprocessed_human_messages at h
  have h2 := List.mem_of_mem_take h
  rw [mem_sortByTime] at h2
  exact ⟨(List.mem_filter.1 h2).1, (List.mem_filter.1 h2).2⟩

theorem fetch_length_le (db : DB) (tf : Option Nat) (lim : Nat) :
    (_fetch_unprocessed_human_messages db tf lim).length ≤ lim :=
  le_trans (List.length_take_le _ _) (le_refl _)

theorem fetch_sorted (db : DB) (tf : Option Nat) (lim : Nat) :
    List.Sorted timeLE (_fetch_unprocessed_human_messages db tf lim) :=
  List.Pairwise.sublist (List.take_sublist _ _) (sorted_sortByTime _)

theorem fetch_nil_of_none_pending (db : DB) (tf : Option Nat) (lim : Nat)
    (h : ∀ m ∈ db.messages, pendingHuman tf m = false) :
    _fetch_unprocessed_human_messages db tf lim = [] := by
  unfold _fetch_unprocessed_human_messages
  have : db.messages.filter (pendingHuman tf) = [] := by
    rw [List.filter_eq_nil_iff]
    intro a ha
    simp [h a ha]
  rw [this]
  simp [sortByTime]

/-! ## Marking lemmas -/

/-- Marked rows keep their id. -/
theorem mark_mem (l : List Message) (hid now : Nat) (m : Message)
    (h : m ∈ _mark_human_processed l hid now) :
    ∃ m0 ∈ l, m = m0 ∨
      (m0.id = hid ∧ m0.bot_processed_at = none ∧ m = { m0 with bot_processed_at := some now }) := by
  unfold _mark_human_processed at h
  rcases List.mem_map.1 h with ⟨m0, hm0, heq⟩
  refine ⟨m0, hm0, ?_⟩
  by_cases hc : (m0.id == hid && m0.bot_processed_at == none) = true
  · right
    rw [if_pos hc] at heq
    simp only [Bool.and_eq_true, beq_iff_eq] at hc
    exact ⟨hc.1, by simpa using hc.2, heq.symm⟩
  · left
    rw [if_neg hc] at heq
    exact heq.symm

/-- After marking, every row with the marked id carries a non-null marker. -/
theorem mark_marked (l : List Message) (hid now : Nat) (m : Message)
    (h : m ∈ _mark_human_processed l hid now) (hidm : m.id = hid) :
    m.bot_processed_at ≠ none := by
  rcases mark_mem l hid now m h with ⟨m0, _, rfl | ⟨h1, h2, rfl⟩⟩
  · intro hnone
    unfold _mark_human_processed at h
    rcases List.mem_map.1 h with ⟨m1, _, heq⟩
    by_cases hc : (m1.id == hid && m1.bot_processed_at == none) = true
    · rw [if_pos hc] at heq
      rw [← heq] at hnone
      simp at hnone
    · rw [if_neg hc] at heq
      rw [← heq] at hnone hidm
      simp only [Bool.and_eq_true, beq_iff_eq, not_and] at hc
      exact hc (by simpa using hidm) (by simpa using hnone)
  · simp

/-- Rows that already carry a marker pass through `_mark_human_processed`
    unchanged (the `bot_processed_at is null` guard). -/
theorem mark_keeps_processed (l : List Message) (hid now : Nat) (m : Message)
    (hm : m ∈ l) (hp : m.bot_processed_at ≠ none) :
    m ∈ _mark_human_processed l hid now := by
  unfold _mark_human_processed
  refine List.mem_map.2 ⟨m, hm, ?_⟩
  rw [if_neg]
  simp only [Bool.and_eq_true, beq_iff_eq, not_and]
  intro _ hc
  exact absurd (by simpa using hc) hp

/-! ## publishLoop lemmas -/

/-- With `dry_run`, the per-recipient loop touches nothing. -/
theorem publishLoop_dry (ctx : RunCtx) (h : Message) (bm : Option Nat) (sn : List String) :
    ∀ rs db acc, publishLoop ctx true h bm sn rs db acc = .ok (db, acc.reverse) := by
  intro rs
  induction rs with
  | nil => intro db acc; rfl
  | cons r rest ih => intro db acc; simpa [publishLoop] using ih db acc

/-- A successful per-recipient loop only appends freshly sealed outbound rows;
    every other table is untouched. -/
theorem publishLoop_ok (ctx : RunCtx) (dr : Bool) (h : Message) (bm : Option Nat)
    (sn : List String) :
    ∀ rs db acc db2 ids, publishLoop ctx dr h bm sn rs db acc = .ok (db2, ids) →
      ∃ rows, db2.messages = db.messages ++ rows ∧
        db2.threads = db.threads ∧ db2.loop_members = db.loop_members ∧
        db2.loop_agents = db.loop_agents ∧ db2.members = db.members ∧
        ∀ m ∈ rows, m.audience = "bot_to_user" ∧
          (∃ p, m.content_ciphertext = seal_plaintext p) ∧ m.bot_processed_at = none := by
  intro rs
  induction rs with
  | nil =>
    intro db acc db2 ids hok
    simp only [publishLoop, Except.ok.injEq, Prod.mk.injEq] at hok
    exact ⟨[], by simp [← hok.1]⟩
  | cons r rest ih =>
    intro db acc db2 ids hok
    simp only [publishLoop] at hok
    by_cases hdry : dr
    · rw [if_pos hdry] at hok
      exact ih db acc db2 ids hok
    · rw [if_neg hdry] at hok
      cases hg : ctx.gen h.id r sn with
      | error e => rw [hg] at hok; simp at hok
      | ok txt =>
        rw [hg] at hok
        dsimp only at hok
        by_cases hempty : pyStrip txt = ""
        · rw [if_pos hempty] at hok
          exact ih db acc db2 ids hok
        · rw [if_neg hempty] at hok
          by_cases hins : ctx.insFail db.nextId
          · rw [if_pos hins] at hok; simp at hok
          · rw [if_neg hins] at hok
            rcases ih _ _ _ _ hok with ⟨rows, hmsgs, ht, hlm, hla, hm, hrows⟩
            refine ⟨_insert_bot_dm db.nextId ctx.now h.thread_id ctx.bot_profile_id bm r
              (pyStrip txt) :: rows, ?_, ht, hlm, hla, hm, ?_⟩
            · simpa [List.append_assoc] using hmsgs
            · intro m hm2
              rcases List.mem_cons.1 hm2 with rfl | hm2
              · exact ⟨rfl, ⟨pyStrip txt, rfl⟩, rfl⟩
              · exact hrows m hm2

/-- A rolled-back iteration leaves the store untouched. -/
theorem stepMessage_skipped (ctx : RunCtx) (dr : Bool) (db : DB) (h : Message)
    (db' : DB) (item : ProcessItemResult)
    (hs : stepMessage ctx dr db h = .skipped db' item) : db' = db := by
  unfold stepMessage at hs
  split at hs
  · simp at hs
  · split at hs
    · simp only [StepRes.skipped.injEq] at hs
      exact hs.1.symm
    · split at hs
      · simp only [StepRes.skipped.injEq] at hs
        exact hs.1.symm
      · dsimp only at hs
        split at hs
        · simp only [StepRes.skipped.injEq] at hs
          exact hs.1.symm
        · simp at hs

/-- An aborted iteration (404 on the thread lookup) leaves the store
    untouched: the transaction is rolled back before the re-raise. -/
theorem stepMessage_aborted (ctx : RunCtx) (dr : Bool) (db : DB) (h : Message)
    (db' : DB) (hs : stepMessage ctx dr db h = .aborted db') : db' = db := by
  unfold stepMessage at hs
  split at hs
  · simp only [StepRes.aborted.injEq] at hs
    exact hs.symm
  · split at hs
    · simp at hs
    · split at hs
      · simp at hs
      · dsimp only at hs
        split at hs
        · simp at hs
        · simp at hs

/-- Structure of a committed iteration: the store gains only this message's
    sealed outbound rows, plus the mark on the source id (publish mode); the
    item records the source id and no skip reason. -/
theorem stepMessage_committed (ctx : RunCtx) (dr : Bool) (db : DB) (h : Message)
    (db' : DB) (item : ProcessItemResult)
    (hs : stepMessage ctx dr db h = .committed db' item) :
    item.human_message_id = h.id ∧ item.skipped_reason = none ∧
    ∃ rows, (∀ m ∈ rows, m.audience = "bot_to_user" ∧
        (∃ p, m.content_ciphertext = seal_plaintext p) ∧ m.bot_processed_at = none) ∧
      db'.messages = (if dr then db.messages ++ rows
        else _mark_human_processed (db.messages ++ rows) h.id ctx.now) ∧
      db'.threads = db.threads ∧ db'.loop_members = db.loop_members ∧
      db'.loop_agents = db.loop_agents ∧ db'.members = db.members := by
  unfold stepMessage at hs
  split at hs
  · simp at hs
  · split at hs
    · simp at hs
    · split at hs
      · simp at hs
      · dsimp only at hs
        split at hs
        · simp at hs
        · rename_i db2 new_ids heq
          simp only [StepRes.committed.injEq] at hs
          obtain ⟨hdb, hitem⟩ := hs
          rcases publishLoop_ok ctx dr h _ _ _ db [] db2 new_ids heq with
            ⟨rows, hmsgs, ht, hlm, hla, hm, hrows⟩
          refine ⟨by rw [← hitem], by rw [← hitem], rows, hrows, ?_⟩
          by_cases hdr : dr
          · rw [if_pos hdr] at hdb
            subst hdb
            rw [if_pos hdr]
            exact ⟨hmsgs, ht, hlm, hla, hm⟩
          · rw [if_neg hdr] at hdb
            subst hdb
            rw [if_neg hdr]
            exact ⟨by rw [hmsgs], ht, hlm, hla, hm⟩

/-- With `dry_run`, every iteration leaves the store untouched. -/
theorem stepMessage_dry (ctx : RunCtx) (db : DB) (h : Message) :
    (stepMessage ctx true db h).store = db := by
  unfold stepMessage
  split
  · rfl
  · split
    · rfl
    · split
      · rfl
      · dsimp only
        split
        · rfl
        · rename_i db2 new_ids heq
          rw [publishLoop_dry] at heq
          simp only [Except.ok.injEq, Prod.mk.injEq] at heq
          simp [StepRes.store, ← heq.1]

/-- Shape of the recipients an iteration reports: either empty (early skips)
    or exactly the thread's loop member profiles minus the author's profile.
-/
theorem stepMessage_recipients_shape (ctx : RunCtx) (dr : Bool) (db : DB) (h : Message)
    (db' : DB) (item : ProcessItemResult)
    (hs : stepMessage ctx dr db h = .committed db' item ∨
          stepMessage ctx dr db h = .skipped db' item) :
    item.recipients = [] ∨
    ∃ loop_id all_profiles am lm, h.author_member_id = some am ∧
      List.find? (fun x => x.id == am) db.loop_members = some lm ∧
      _thread_loop_id_and_members db h.thread_id = some (loop_id, all_profiles) ∧
      item.recipients = all_profiles.filter (fun pid => pid != lm.profile_id) := by
  have main : ∀ db'' item'',
      stepMessage ctx dr db h = .committed db'' item'' ∨
      stepMessage ctx dr db h = .skipped db'' item'' →
      item''.recipients = [] ∨
      ∃ loop_id all_profiles am lm, h.author_member_id = some am ∧
        List.find? (fun x => x.id == am) db.loop_members = some lm ∧
        _thread_loop_id_and_members db h.thread_id = some (loop_id, all_profiles) ∧
        item''.recipients = all_profiles.filter (fun pid => pid != lm.profile_id) := by
    intro db'' item'' hs2
    unfold stepMessage at hs2
    cases hthread : _thread_loop_id_and_members db h.thread_id with
    | none =>
      rw [hthread] at hs2
      dsimp only at hs2
      rcases hs2 with hs2 | hs2 <;> simp at hs2
    | some pr =>
      obtain ⟨loop_id, all_profiles⟩ := pr
      rw [hthread] at hs2
      dsimp only at hs2
      cases ham : h.author_member_id with
      | none =>
        rw [ham] at hs2
        dsimp only at hs2
        rcases hs2 with hs2 | hs2
        · simp at hs2
        · left
          simp only [StepRes.skipped.injEq] at hs2
          rw [← hs2.2]
      | some am =>
        rw [ham] at hs2
        dsimp only at hs2
        cases hfind : List.find? (fun lm => lm.id == am) db.loop_members with
        | none =>
          rw [hfind] at hs2
          dsimp only at hs2
          rcases hs2 with hs2 | hs2
          · simp at hs2
          · left
            simp only [StepRes.skipped.injEq] at hs2
            rw [← hs2.2]
        | some lm =>
          rw [hfind] at hs2
          dsimp only at hs2
          cases hpub : publishLoop ctx dr h
              (_resolve_bot_member_id db loop_id ctx.bot_profile_id)
              (_select_recent_sender_messages db h.thread_id am 5)
              (all_profiles.filter (fun pid => pid != lm.profile_id)) db [] with
          | error reason =>
            rw [hpub] at hs2
            dsimp only at hs2
            rcases hs2 with hs2 | hs2
            · simp at hs2
            · right
              simp only [StepRes.skipped.injEq] at hs2
              exact ⟨loop_id, all_profiles, am, lm, rfl, hfind, rfl, by rw [← hs2.2]⟩
          | ok pr2 =>
            obtain ⟨db2, new_ids⟩ := pr2
            rw [hpub] at hs2
            dsimp only at hs2
            rcases hs2 with hs2 | hs2
            · right
              simp only [StepRes.committed.injEq] at hs2
              exact ⟨loop_id, all_profiles, am, lm, rfl, hfind, rfl, by rw [← hs2.2]⟩
            · simp at hs2
  exact main db' item hs

/-- Each skip records a reason. -/
theorem stepMessage_skipped_reason (ctx : RunCtx) (dr : Bool) (db : DB) (h : Message)
    (db' : DB) (item : ProcessItemResult)
    (hs : stepMessage ctx dr db h = .skipped db' item) : item.skipped_reason ≠ none := by
  unfold stepMessage at hs
  split at hs
  · simp at hs
  · split at hs
    · simp only [StepRes.skipped.injEq] at hs
      rw [← hs.2]
      simp
    · split at hs
      · simp only [StepRes.skipped.injEq] at hs
        rw [← hs.2]
        simp
      · dsimp only at hs
        split at hs
        · simp only [StepRes.skipped.injEq] at hs
          rw [← hs.2]
          simp
        · simp at hs

/-! ## Run-level lemmas for process_queue -/

/-- A dry run of the message loop leaves the store untouched. -/
theorem processLoop_dry (ctx : RunCtx) :
    ∀ batch db stats items, (processLoop ctx true batch db stats items).1 = db := by
  intro batch
  induction batch with
  | nil => intro db stats items; rfl
  | cons h rest ih =>
    intro db stats items
    simp only [processLoop]
    have hdry := stepMessage_dry ctx db h
    cases hstep : stepMessage ctx true db h with
    | aborted db2 =>
      rw [hstep] at hdry
      simpa [StepRes.store] using hdry
    | committed db2 item =>
      rw [hstep] at hdry
      simp only [StepRes.store] at hdry
      dsimp only
      rw [ih, hdry]
    | skipped db2 item =>
      rw [hstep] at hdry
      simp only [StepRes.store] at hdry
      dsimp only
      rw [ih, hdry]

/-- A committed publish-mode iteration establishes the invariant for its item. -/
theorem stepMessage_establishes_marked (ctx : RunCtx) (db : DB) (h : Message)
    (db' : DB) (item : ProcessItemResult)
    (hs : stepMessage ctx false db h = .committed db' item) : MarkedFor db' item := by
  rcases stepMessage_committed ctx false db h db' item hs with ⟨hid, _, rows, _, hmsgs, _⟩
  rw [if_neg (by simp)] at hmsgs
  intro m hm _ hidm
  rw [hmsgs] at hm
  exact mark_marked _ _ _ m hm (by rw [hidm, hid])

/-- Any iteration preserves the invariant for previously reported items. -/
theorem stepMessage_preserves_marked (ctx : RunCtx) (dr : Bool) (db : DB) (h : Message)
    (item0 : ProcessItemResult) (hP : MarkedFor db item0) :
    ∀ db' item, (stepMessage ctx dr db h = .committed db' item ∨
        stepMessage ctx dr db h = .skipped db' item ∨
        stepMessage ctx dr db h = .aborted db') → MarkedFor db' item0 := by
  intro db' item hs
  rcases hs with hs | hs | hs
  · rcases stepMessage_committed ctx dr db h db' item hs with ⟨_, _, rows, hrows, hmsgs, _⟩
    intro m hm haud hid
    rw [hmsgs] at hm
    by_cases hdr : dr
    · rw [if_pos hdr] at hm
      rcases List.mem_append.1 hm with hm | hm
      · exact hP m hm haud hid
      · rcases hrows m hm with ⟨hbot, _, _⟩
        rw [haud] at hbot
        simp at hbot
    · rw [if_neg hdr] at hm
      rcases mark_mem _ _ _ m hm with ⟨m0, hm0, heq | ⟨_, _, heq⟩⟩
      · subst heq
        rcases List.mem_append.1 hm0 with hm0 | hm0
        · exact hP m hm0 haud hid
        · rcases hrows m hm0 with ⟨hbot, _, _⟩
          rw [haud] at hbot
          simp at hbot
      · rw [heq]
        simp
  · rw [stepMessage_skipped ctx dr db h db' item hs]
    exact hP
  · rw [stepMessage_aborted ctx dr db h db' hs]
    exact hP

/-- Folding the message loop: every item reported without a skip reason has
    its source marked in the final store. -/
theorem processLoop_marked (ctx : RunCtx) :
    ∀ batch db stats items0,
      (∀ item ∈ items0, item.skipped_reason = none → MarkedFor db item) →
      ∀ db1 resp, processLoop ctx false batch db stats items0 = (db1, some resp) →
      ∀ item ∈ resp.items, item.skipped_reason = none → MarkedFor db1 item := by
  intro batch
  induction batch with
  | nil =>
    intro db stats items0 hpre db1 resp hrun item hmem hreason
    simp only [processLoop, Prod.mk.injEq, Option.some.injEq] at hrun
    obtain ⟨rfl, rfl⟩ := hrun
    simp only [List.mem_reverse] at hmem
    exact hpre item hmem hreason
  | cons h rest ih =>
    intro db stats items0 hpre db1 resp hrun item hmem hreason
    simp only [processLoop] at hrun
    cases hstep : stepMessage ctx false db h with
    | aborted db2 =>
      rw [hstep] at hrun
      simp at hrun
    | committed db2 newItem =>
      rw [hstep] at hrun
      dsimp only at hrun
      refine ih db2 _ (newItem :: items0) ?_ db1 resp hrun item hmem hreason
      intro it hit hitr
      rcases List.mem_cons.1 hit with rfl | hit
      · exact stepMessage_establishes_marked ctx db h db2 it hstep
      · exact stepMessage_preserves_marked ctx false db h it (hpre it hit hitr) db2 newItem
          (Or.inl hstep)
    | skipped db2 newItem =>
      rw [hstep] at hrun
      dsimp only at hrun
      refine ih db2 _ (newItem :: items0) ?_ db1 resp hrun item hmem hreason
      intro it hit hitr
      rcases List.mem_cons.1 hit with rfl | hit
      · exact absurd hitr (stepMessage_skipped_reason ctx false db h db2 it hstep)
      · exact stepMessage_preserves_marked ctx false db h it (hpre it hit hitr) db2 newItem
          (Or.inr (Or.inl hstep))

theorem rowProvenance_trans (db db2 : DB) (now : Nat) (m : Message)
    (hstep : ∀ m' ∈ db2.messages, RowProvenance db now m')
    (hm : RowProvenance db2 now m) : RowProvenance db now m := by
  rcases hm with hm | ⟨m0, hm0, heq⟩ | hseal
  · exact hstep m hm
  · rcases hstep m0 hm0 with hin | ⟨m1, hm1, heq1⟩ | ⟨p, hp⟩
    · exact Or.inr (Or.inl ⟨m0, hin, heq⟩)
    · refine Or.inr (Or.inl ⟨m1, hm1, ?_⟩)
      rw [heq, heq1]
    · refine Or.inr (Or.inr ⟨p, ?_⟩)
      rw [heq]
      exact hp
  · exact Or.inr (Or.inr hseal)

/-- One iteration only adds sealed rows or sets markers. -/
theorem stepMessage_provenance (ctx : RunCtx) (dr : Bool) (db : DB) (h : Message) :
    ∀ db' item, (stepMessage ctx dr db h = .committed db' item ∨
        stepMessage ctx dr db h = .skipped db' item ∨
        stepMessage ctx dr db h = .aborted db') →
      ∀ m ∈ db'.messages, RowProvenance db ctx.now m := by
  intro db' item hs m hm
  rcases hs with hs | hs | hs
  · rcases stepMessage_committed ctx dr db h db' item hs with ⟨_, _, rows, hrows, hmsgs, _⟩
    rw [hmsgs] at hm
    by_cases hdr : dr
    · rw [if_pos hdr] at hm
      rcases List.mem_append.1 hm with hm | hm
      · exact Or.inl hm
      · exact Or.inr (Or.inr (hrows m hm).2.1)
    · rw [if_neg hdr] at hm
      rcases mark_mem _ _ _ m hm with ⟨m0, hm0, heq | ⟨_, _, heq⟩⟩
      · subst heq
        rcases List.mem_append.1 hm0 with hm0 | hm0
        · exact Or.inl hm0
        · exact Or.inr (Or.inr (hrows m hm0).2.1)
      · rcases List.mem_append.1 hm0 with hm0 | hm0
        · exact Or.inr (Or.inl ⟨m0, hm0, heq⟩)
        · refine Or.inr (Or.inr ?_)
          rcases (hrows m0 hm0).2.1 with ⟨p, hp⟩
          refine ⟨p, ?_⟩
          rw [heq]
          exact hp
  · rw [stepMessage_skipped ctx dr db h db' item hs] at hm
    exact Or.inl hm
  · rw [stepMessage_aborted ctx dr db h db' hs] at hm
    exact Or.inl hm

/-- Folding the message loop preserves row provenance. -/
theorem processLoop_provenance (ctx : RunCtx) (dr : Bool) :
    ∀ batch db stats items db1 out,
      processLoop ctx dr batch db stats items = (db1, out) →
      ∀ m ∈ db1.messages, RowProvenance db ctx.now m := by
  intro batch
  induction batch with
  | nil =>
    intro db stats items db1 out hrun m hm
    simp only [processLoop, Prod.mk.injEq] at hrun
    rw [← hrun.1] at hm
    exact Or.inl hm
  | cons h rest ih =>
    intro db stats items db1 out hrun m hm
    simp only [processLoop] at hrun
    cases hstep : stepMessage ctx dr db h with
    | aborted db2 =>
      rw [hstep] at hrun
      dsimp only at hrun
      have hdb : db2 = db1 := congrArg Prod.fst hrun
      rw [← hdb] at hm
      exact stepMessage_provenance ctx dr db h db2
        { human_message_id := h.id, thread_id := h.thread_id }
        (Or.inr (Or.inr hstep)) m hm
    | committed db2 item =>
      rw [hstep] at hrun
      dsimp only at hrun
      exact rowProvenance_trans db db2 ctx.now m
        (stepMessage_provenance ctx dr db h db2 item (Or.inl hstep))
        (ih db2 _ _ db1 out hrun m hm)
    | skipped db2 item =>
      rw [hstep] at hrun
      dsimp only at hrun
      exact rowProvenance_trans db db2 ctx.now m
        (stepMessage_provenance ctx dr db h db2 item (Or.inr (Or.inl hstep)))
        (ih db2 _ _ db1 out hrun m hm)

/-! ## Claim theorems -/

/-- C10: for every string x, `reveal_plaintext (seal_plaintext x)` equals x
    with outer whitespace stripped; sealed text is exactly the literal
    `"cipher:"` marker followed by the trimmed plaintext; and every row a
    `process_queue` run adds to the store, other than setting the marker of an
    existing row, has content produced by `seal_plaintext`. -/
theorem c10_seal_reveal_roundtrip :
    (∀ x : String, reveal_plaintext (seal_plaintext x) = pyStrip x) ∧
    (∀ x : String, seal_plaintext x = cipherMark ++ pyStrip x ∧
      pyStartsWith (seal_plaintext x) cipherMark = true) ∧
    (∀ ctx tf lim dr db db1 out, process_queue ctx tf lim dr db = (db1, out) →
      ∀ m ∈ db1.messages, m ∈ db.messages ∨
        (∃ m0 ∈ db.messages, m = { m0 with bot_processed_at := some ctx.now }) ∨
        ∃ p, m.content_ciphertext = seal_plaintext p) := by
  refine ⟨reveal_seal_eq_strip, ?_, ?_⟩
  · intro x
    refine ⟨rfl, ?_⟩
    have hdata : (seal_plaintext x).data = cipherMark.data ++ (pyStrip x).data := by
      simp [seal_plaintext, String.data_append]
    rw [pyStartsWith, hdata, List.isPrefixOf_iff_prefix]
    exact List.prefix_append _ _
  · intro ctx tf lim dr db db1 out hrun m hm
    exact processLoop_provenance ctx dr _ db _ _ db1 out hrun m hm

theorem c10_witness :
    reveal_plaintext (seal_plaintext " hi ") = pyStrip " hi " ∧
    (row10 ∈ db10.messages ∨
      (∃ m0 ∈ db10.messages, row10 = { m0 with bot_processed_at := some ctx10.now }) ∨
      ∃ p, row10.content_ciphertext = seal_plaintext p) :=
  ⟨c10_seal_reveal_roundtrip.1 " hi ",
   c10_seal_reveal_roundtrip.2.2 ctx10 none 10 false db10 _ _ rfl row10 (by decide)⟩

/-- C8 counterexample: an empty model output is returned as the empty string;
    `generate_reply` substitutes no fallback text. -/
theorem c8_counterexample :
    llm_generate_reply 600 2 10 (fun _ => .ok "") = .ok "" := rfl

/-- C8 (amended): the text `generate_reply` returns never exceeds the
    configured maximum character length, but an empty model output is
    propagated as the empty string (the caller in `process_queue` then skips
    that recipient); no fallback text is substituted. -/
theorem c8_amended_trim :
    (∀ maxChars retries retryMax oracle t,
      llm_generate_reply maxChars retries retryMax oracle = .ok t → pyLen t ≤ maxChars) ∧
    (∀ maxChars retries retryMax oracle,
      (_chat_with_retry retries retryMax oracle).result = .ok "" →
      llm_generate_reply maxChars retries retryMax oracle = .ok "") := by
  constructor
  · intro maxChars retries retryMax oracle t hok
    unfold llm_generate_reply at hok
    cases hc : (_chat_with_retry retries retryMax oracle).result with
    | ok text =>
      rw [hc] at hok
      simp only [Except.ok.injEq] at hok
      rw [← hok]
      exact pyLen_post_trim_le maxChars text
    | error e => rw [hc] at hok; simp at hok
  · intro maxChars retries retryMax oracle hc
    unfold llm_generate_reply
    rw [hc]
    dsimp only
    have hpt : _post_trim maxChars "" = "" := by
      unfold _post_trim
      rw [if_neg]
      simp [pyLen]
    rw [hpt]

theorem c8_witness : pyLen "hel" ≤ 3 :=
  c8_amended_trim.1 3 0 10 (fun _ => .ok "hello") "hel" rfl

/-- C9: on transient failures `_chat_with_retry` retries up to `retries` more
    times (at most `retries + 1` attempts), sleeping between attempts with a
    delay that starts at 1 second, doubles each retry and is capped at
    `retryMax`; every retried attempt failed transiently, and a raise happens
    only at the final attempt for transient errors or immediately (no retry,
    no extra sleep) for non-transient ones. -/
theorem c9_retry_policy (retries retryMax : Nat) (oracle : Nat → Except ExcInfo String) :
    1 ≤ (_chat_with_retry retries retryMax oracle).attempts ∧
    (_chat_with_retry retries retryMax oracle).attempts ≤ retries + 1 ∧
    (_chat_with_retry retries retryMax oracle).sleeps
      = (List.range ((_chat_with_retry retries retryMax oracle).attempts - 1)).map
          (fun i => min (2 ^ i) retryMax) ∧
    (∀ i, i + 1 < (_chat_with_retry retries retryMax oracle).attempts →
      ∃ e, oracle i = .error e ∧ _is_transient_error e = true) ∧
    (∀ e, (_chat_with_retry retries retryMax oracle).result = .error e →
      oracle ((_chat_with_retry retries retryMax oracle).attempts - 1) = .error e ∧
        ((_chat_with_retry retries retryMax oracle).attempts = retries + 1 ∨
          _is_transient_error e = false)) := by
  unfold _chat_with_retry
  refine ⟨by simpa using chatGo_attempts_ge oracle retryMax retries 0 1 [],
    by simpa using chatGo_attempts_le oracle retryMax retries 0 1 [], ?_, ?_, ?_⟩
  · have := chatGo_sleeps oracle retryMax retries 0 1 []
    simpa using this
  · intro i hi
    exact chatGo_mid_transient oracle retryMax retries 0 1 [] i (Nat.zero_le i) hi
  · intro e he
    have := chatGo_error oracle retryMax retries 0 1 [] e he
    simpa using this

theorem c9_witness : ∃ e, o9 0 = .error e ∧ _is_transient_error e = true :=
  (c9_retry_policy 2 10 o9).2.2.2.1 0 (by decide)

/-- C2: with `dry_run = true` neither pipeline changes the store at all: no
    marker is set and no outbound row is inserted, for any batch and content.
-/
theorem c2_dry_run_purity :
    (∀ ctx tf lim db, (process_queue ctx tf lim true db).1 = db) ∧
    (∀ bot tf lim now db, (bot_process bot tf lim true now db).1 = db) := by
  constructor
  · intro ctx tf lim db
    exact processLoop_dry ctx _ db _ _
  · intro bot tf lim now db
    unfold bot_process
    by_cases hr : (_select_unprocessed db tf lim).isEmpty
    · simp [hr]
    · simp [hr]

/-- C6 (amended): both queue selectors return at most N messages, all of them
    pending inbox rows of the store matching the thread scope, ordered
    oldest-first by creation time, and return the empty list (not an error)
    when nothing is pending; ties in `created_at` keep table order — the SQL
    names no id tie-break. -/
theorem c6_amended_selector :
    (∀ db tf lim, (_fetch_unprocessed_human_messages db tf lim).length ≤ lim ∧
      (∀ m ∈ _fetch_unprocessed_human_messages db tf lim,
        m ∈ db.messages ∧ m.audience = "inbox_to_bot" ∧ m.bot_processed_at = none ∧
          ∀ t, tf = some t → m.thread_id = t) ∧
      List.Sorted timeLE (_fetch_unprocessed_human_messages db tf lim) ∧
      ((∀ m ∈ db.messages, pendingHuman tf m = false) →
        _fetch_unprocessed_human_messages db tf lim = [])) ∧
    (∀ db tf lim, (_select_unprocessed db tf lim).length ≤ lim ∧
      ∀ m ∈ _select_unprocessed db tf lim,
        m ∈ db.messages ∧ m.audience = "inbox_to_bot" ∧ m.processed ≠ some true) := by
  constructor
  · intro db tf lim
    refine ⟨fetch_length_le db tf lim, ?_, fetch_sorted db tf lim,
      fetch_nil_of_none_pending db tf lim⟩
    intro m hm
    rcases mem_fetch db tf lim m hm with ⟨hmem, hpend⟩
    simp only [pendingHuman, Bool.and_eq_true, beq_iff_eq] at hpend
    refine ⟨hmem, hpend.1.1, by simpa using hpend.1.2, ?_⟩
    intro t ht
    rw [ht] at hpend
    simpa using hpend.2
  · intro db tf lim
    refine ⟨List.length_take_le _ _, ?_⟩
    intro m hm
    unfold _select_unprocessed at hm
    have h2 := List.mem_of_mem_take hm
    rw [mem_sortByTime] at h2
    have h3 := List.mem_filter.1 h2
    rcases h3 with ⟨hmem, hcond⟩
    simp only [Bool.and_eq_true, beq_iff_eq, Bool.not_eq_true'] at hcond
    refine ⟨hmem, hcond.1.1, ?_⟩
    intro hp
    rw [hp] at hcond
    simpa using hcond.1.2

/-- C6 counterexample: with equal creation times the selection is not ordered
    by id — the tie-break the claim describes is absent from the query. -/
theorem c6_counterexample :
    ((_fetch_unprocessed_human_messages db6 none 10).map (fun m => m.created_at) = [5, 5]) ∧
    ((_fetch_unprocessed_human_messages db6 none 10).map (fun m => m.id) = [2, 1]) ∧
    ¬ List.Pairwise (fun a b => a.id ≤ b.id) (_fetch_unprocessed_human_messages db6 none 10) := by
  refine ⟨by decide, by decide, ?_⟩
  intro hp
  have : (_fetch_unprocessed_human_messages db6 none 10) = [msg6a, msg6b] := by decide
  rw [this] at hp
  rcases List.pairwise_cons.1 hp with ⟨h1, _⟩
  have := h1 msg6b (by simp)
  simp [msg6a, msg6b] at this

theorem c6_witness : _fetch_unprocessed_human_messages db6e none 5 = [] :=
  (c6_amended_selector.1 db6e none 5).2.2.2 (by decide)

/-- Any profile reported by the thread lookup is a loop_members profile. -/
theorem thread_members_sub (db : DB) (tid loop_id : Nat) (profiles : List Nat)
    (h : _thread_loop_id_and_members db tid = some (loop_id, profiles)) :
    ∀ p ∈ profiles, ∃ mr ∈ db.loop_members, mr.profile_id = p := by
  unfold _thread_loop_id_and_members at h
  cases ht : db.threads.find? (fun t => t.id == tid) with
  | none => rw [ht] at h; simp at h
  | some t =>
    rw [ht] at h
    simp only [Option.some.injEq, Prod.mk.injEq] at h
    intro p hp
    rw [← h.2] at hp
    rcases List.mem_map.1 hp with ⟨mr, hmr, heq⟩
    exact ⟨mr, (List.mem_filter.1 hmr).1, heq⟩

/-- C1 (amended): the mounted pipeline's recipient set never contains the
    author's profile; it contains the bot identity only if the bot's profile
    is itself a `loop_members` row (bots normally live in `loop_agents`, which
    the recipient computation does not consult); the standalone resolver
    `resolve_recipients_for_message` excludes both the author and every known
    bot id. -/
theorem c1_amended_recipients :
    (∀ ctx dr db h db' item,
      (stepMessage ctx dr db h = .committed db' item ∨
       stepMessage ctx dr db h = .skipped db' item) →
      (∀ am lm, h.author_member_id = some am →
        List.find? (fun x => x.id == am) db.loop_members = some lm →
        lm.profile_id ∉ item.recipients) ∧
      ((∀ mr ∈ db.loop_members, mr.profile_id ≠ ctx.bot_profile_id) →
        ctx.bot_profile_id ∉ item.recipients)) ∧
    (∀ db am ap bots, ap ∉ resolve_recipients_for_message db am ap bots ∧
      ∀ b ∈ bots, b ∉ resolve_recipients_for_message db am ap bots) := by
  constructor
  · intro ctx dr db h db' item hs
    rcases stepMessage_recipients_shape ctx dr db h db' item hs with hnil | hshape
    · rw [hnil]
      exact ⟨fun _ _ _ _ => List.not_mem_nil _, fun _ => List.not_mem_nil _⟩
    · rcases hshape with ⟨loop_id, all_profiles, am0, lm0, ham0, hfind0, hthread0, hrec⟩
      constructor
      · intro am lm ham hfind hmem
        rw [ham0] at ham
        injection ham with ham
        subst ham
        rw [hfind0] at hfind
        injection hfind with hfind
        subst hfind
        rw [hrec] at hmem
        rcases List.mem_filter.1 hmem with ⟨_, hne⟩
        simp at hne
      · intro hbot hmem
        rw [hrec] at hmem
        rcases List.mem_filter.1 hmem with ⟨hall, _⟩
        rcases thread_members_sub db h.thread_id loop_id all_profiles hthread0
          ctx.bot_profile_id hall with ⟨mr, hmr, heq⟩
        exact hbot mr hmr heq
  · intro db am ap bots
    unfold resolve_recipients_for_message
    cases hl : _fetch_loop_id_for_member db am with
    | none => simp
    | some loop_id =>
      constructor
      · intro hmem
        unfold _fetch_recipients_for_loop at hmem
        rcases List.mem_map.1 hmem with ⟨mr, hmr, heq⟩
        rcases List.mem_filter.1 hmr with ⟨_, hcond⟩
        simp only [Bool.and_eq_true, Bool.not_eq_true'] at hcond
        have := hcond.2
        rw [List.contains_eq_any_beq] at this
        simp only [List.any_eq_false] at this
        have h2 := this ap (by simp)
        rw [heq] at h2
        simp at h2
      · intro b hb hmem
        unfold _fetch_recipients_for_loop at hmem
        rcases List.mem_map.1 hmem with ⟨mr, hmr, heq⟩
        rcases List.mem_filter.1 hmr with ⟨_, hcond⟩
        simp only [Bool.and_eq_true, Bool.not_eq_true'] at hcond
        have := hcond.2
        rw [List.contains_eq_any_beq] at this
        simp only [List.any_eq_false] at this
        have h2 := this b (by simp [hb])
        rw [heq] at h2
        simp at h2

/-- C1 counterexample: the pipeline resolves the bot identity itself as a
    recipient when the bot's profile appears in `loop_members` — only the
    author is excluded. -/
theorem c1_counterexample :
    ctx1c.bot_profile_id = 999 ∧
    ((process_queue ctx1c none 10 true db1c).2).map (fun r => r.items.map (fun i => i.recipients))
      = some [[999, 200]] := by
  constructor
  · rfl
  · decide

theorem c1_witness :
    (999 : Nat) ∉ item1x.recipients ∧
    (100 : Nat) ∉ resolve_recipients_for_message db1w 10 100 [999] :=
  ⟨(c1_amended_recipients.1 ctx1w false db1w msg1w db1x item1x
      (Or.inl (by decide))).2 (by decide),
   (c1_amended_recipients.2 db1w 10 100 [999]).1⟩

/-- C3: per-message publishing is atomic.  A rolled-back iteration (any insert
    or generation failure) leaves the store exactly as it was — zero outbound
    rows for that source message, marker untouched; the marker update skips
    rows whose marker is already set; and a committed publish-mode iteration
    writes its outbound rows and the mark as one store update. -/
theorem c3_publish_atomic :
    (∀ ctx dr db h db' item, stepMessage ctx dr db h = .skipped db' item → db' = db) ∧
    (∀ l hid now m, m ∈ l → m.bot_processed_at ≠ none →
      m ∈ _mark_human_processed l hid now) ∧
    (∀ ctx db h db' item, stepMessage ctx false db h = .committed db' item →
      ∃ rows, (∀ m ∈ rows, m.audience = "bot_to_user") ∧
        db'.messages = _mark_human_processed (db.messages ++ rows) h.id ctx.now) := by
  refine ⟨stepMessage_skipped, mark_keeps_processed, ?_⟩
  intro ctx db h db' item hs
  rcases stepMessage_committed ctx false db h db' item hs with ⟨_, _, rows, hrows, hmsgs, _⟩
  rw [if_neg (by simp)] at hmsgs
  exact ⟨rows, fun m hm => (hrows m hm).1, hmsgs⟩

theorem c3_witness :
    db3 = db3 ∧ msg3p ∈ _mark_human_processed [msg3p] 1 5 :=
  ⟨c3_publish_atomic.1 ctx3 false db3 msg3 db3 item3 (by decide),
   c3_publish_atomic.2.1 [msg3p] 1 5 msg3p (by simp) (by decide)⟩

/-- C4: running the pipeline in publish mode marks every source it reports as
    processed, and the selection query never returns a marked message; hence a
    second run over the unchanged store selects none of them — its scanned
    count restricted to those messages is zero. -/
theorem c4_idempotence :
    ∀ ctx tf lim db db1 resp, process_queue ctx tf lim false db = (db1, some resp) →
      ∀ item ∈ resp.items, item.skipped_reason = none →
        ∀ tf2 lim2,
          (∀ m ∈ _fetch_unprocessed_human_messages db1 tf2 lim2,
            m.bot_processed_at = none ∧ m.id ≠ item.human_message_id) ∧
          ((_fetch_unprocessed_human_messages db1 tf2 lim2).filter
            (fun m => m.id == item.human_message_id)).length = 0 := by
  intro ctx tf lim db db1 resp hrun item hmem hreason tf2 lim2
  have hmarked : MarkedFor db1 item := by
    have hrun2 : processLoop ctx false (_fetch_unprocessed_human_messages db tf lim) db
        { scanned := (_fetch_unprocessed_human_messages db tf lim).length, dry_run := false }
        [] = (db1, some resp) := hrun
    exact processLoop_marked ctx _ db _ [] (by simp) db1 resp hrun2 item hmem hreason
  have hmain : ∀ m ∈ _fetch_unprocessed_human_messages db1 tf2 lim2,
      m.bot_processed_at = none ∧ m.id ≠ item.human_message_id := by
    intro m hm
    rcases mem_fetch db1 tf2 lim2 m hm with ⟨hmem1, hpend⟩
    simp only [pendingHuman, Bool.and_eq_true, beq_iff_eq] at hpend
    have hnone : m.bot_processed_at = none := by simpa using hpend.1.2
    refine ⟨hnone, ?_⟩
    intro hid
    exact hmarked m hmem1 hpend.1.1 hid hnone
  refine ⟨hmain, ?_⟩
  rw [List.filter_eq_nil_iff.2 ?_]
  · rfl
  · intro m hm
    simp only [beq_iff_eq]
    exact (hmain m hm).2

theorem c4_witness :
    ((_fetch_unprocessed_human_messages db4x none 10).filter
      (fun m => m.id == item4.human_message_id)).length = 0 :=
  (c4_idempotence ctx4 none 10 db4 db4x resp4 (by decide) item4 (by decide) (by decide)
    none 10).2

/-- C5 counterexample: generation fails for recipient 200 but succeeds for
    recipient 300, yet the run rolls the whole source message back — nothing
    is delivered to 300, the store is unchanged and the item is skipped. -/
theorem c5_counterexample :
    ctx5.gen 1 200 [] = .error "boom" ∧ ctx5.gen 1 300 [] = .ok "hello" ∧
    process_queue ctx5 none 10 false db5 = (db5, some resp5) := by
  refine ⟨rfl, rfl, ?_⟩
  decide

/-- C5 (amended): a generation exception for any recipient aborts the whole
    per-message transaction — the iteration is rolled back and the store is
    unchanged, so no recipient of that source message is delivered to in that
    run (the source stays pending for retry); only an empty generation result
    is a per-recipient skip that leaves the other recipients' deliveries
    intact. -/
theorem c5_amended_isolation :
    (∀ ctx db h bm sn rest acc r e, ctx.gen h.id r sn = .error e →
      publishLoop ctx false h bm sn (r :: rest) db acc = .error ("error: " ++ e)) ∧
    (∀ ctx db h db' item, stepMessage ctx false db h = .skipped db' item → db' = db) ∧
    (∀ ctx db h bm sn rest acc r t, ctx.gen h.id r sn = .ok t → pyStrip t = "" →
      publishLoop ctx false h bm sn (r :: rest) db acc =
        publishLoop ctx false h bm sn rest db acc) := by
  refine ⟨?_, fun ctx db h db' item => stepMessage_skipped ctx false db h db' item, ?_⟩
  · intro ctx db h bm sn rest acc r e hg
    simp only [publishLoop, if_neg (by simp : ¬(false = true))]
    rw [hg]
  · intro ctx db h bm sn rest acc r t hg hempty
    simp only [publishLoop, if_neg (by simp : ¬(false = true))]
    rw [hg]
    dsimp only
    rw [if_pos hempty]

theorem c5_witness :
    publishLoop ctx5e false msg5 (some 20) [] [200, 300] db5 [] =
      publishLoop ctx5e false msg5 (some 20) [] [300] db5 [] :=
  c5_amended_isolation.2.2 ctx5e db5 msg5 (some 20) [] [300] [] 200 "  " rfl (by decide)

/-- C7 counterexample: in the mounted pipeline a bot with no `loop_agents`
    entry for the author's loop does not cause a skip — the outbound row is
    inserted anyway (with a null author member id) and the source is marked
    processed. -/
theorem c7_counterexample :
    _resolve_bot_member_id db7 1 999 = none ∧
    (process_queue ctx7 none 10 false db7).2 = some resp7 ∧
    ((process_queue ctx7 none 10 false db7).1.messages.filter
      (fun m => m.audience == "bot_to_user")).map (fun m => m.author_member_id) = [none] := by
  refine ⟨rfl, by decide, by decide⟩

/-- C7 (amended): the unmounted variant (app/bot.py `process`) skips a source
    message whose author's loop has no membership row for the bot, recording
    the reason "bot not a member of loop" and publishing nothing for it, while
    the batch response always reports ok = true; the mounted pipeline
    (`process_queue`) instead publishes with a null bot member id. -/
theorem c7_amended_skip :
    (∀ bot dry now db r am loop_id, r.author_member_id = some am →
      ((db.members.find? (fun m => m.id == am)).map (fun m => m.loop_id)) = some loop_id →
      db.members.find? (fun m => m.loop_id == loop_id && m.profile_id == bot) = none →
      stepBot bot dry now db r =
        ({ human_message_id := r.id, thread_id := r.thread_id, recipients := [],
           previews := [], skipped_reason := some "bot not a member of loop" }, [], [])) ∧
    (∀ bot tf lim dry now db, (bot_process bot tf lim dry now db).2.ok = true) := by
  constructor
  · intro bot dry now db r am loop_id ham hloop hbot
    unfold stepBot
    rw [ham]
    dsimp only
    rw [hloop]
    dsimp only
    rw [hbot]
  · intro bot tf lim dry now db
    unfold bot_process
    by_cases hr : (_select_unprocessed db tf lim).isEmpty
    · simp [hr]
    · rw [if_neg (by simpa using hr)]
      lift_lets
      intro acc
      split <;> rfl

theorem c7_witness :
    stepBot 999 false 77 db7w msg7w =
      ({ human_message_id := 1, thread_id := 1, recipients := [],
         previews := [], skipped_reason := some "bot not a member of loop" }, [], []) ∧
    (bot_process 999 none 10 false 77 db7w).2.ok = true :=
  ⟨c7_amended_skip.1 999 false 77 db7w msg7w 10 1 rfl (by decide) (by decide),
   c7_amended_skip.2 999 none 10 false 77 db7w⟩

end Loop
